import Mathlib

/-!
Verification of the livetube fallback resolution pipeline.

Shallow embedding of the Deno/TypeScript sources `src/main.ts` (current
revision) and `src/unnamed/part_000` (earlier revision of the same entry
point, which holds the `/clear-cache` handler).  Network effects are
modelled by explicit oracle parameters; JavaScript truthiness of
`string | undefined` values is modelled explicitly (both `undefined` and
the empty string are falsy).
-/

namespace LiveTube

/-! ## Cache wiring (main.ts lines 30-46, 105-145)

`main.ts` builds two memoization stores:

  const STREAM_VALIDATION_CACHE_TTL = Number(env || 30)
  const STREAM_VALIDATION_CACHE = new LruCache(STREAM_VALIDATION_CACHE_TTL * MINUTE)
  const VIDEO_INFO_CACHE_SIZE = Number(env || 1_00_000)
  const VIDEO_INFO_CACHE = new TtlCache(VIDEO_INFO_CACHE_SIZE * MINUTE)

`LruCache`'s constructor argument is a maximum entry count; `TtlCache`'s
constructor argument is a time-to-live in milliseconds.  `validateStream`
is memoized over STREAM_VALIDATION_CACHE, while `getVideoInfo` and
`getVideoId` are memoized over VIDEO_INFO_CACHE. -/

/-- Eviction discipline of a cache store: either least-recently-used with a
maximum entry count, or wall-clock expiry with a fixed time-to-live. -/
inductive CacheKind where
  | lru
  | ttl
deriving DecidableEq

/-- A cache store as configured at construction: its eviction kind and the
single numeric constructor argument (max entry count for `lru`, duration in
milliseconds for `ttl`). -/
structure CacheConfig where
  kind : CacheKind
  param : Nat
deriving DecidableEq

/-- `MINUTE` from `@std/datetime`: one minute in milliseconds. -/
def MINUTE : Nat := 60000

/-- Default of `Number(Deno.env.get("STREAM_VALIDATION_CACHE_TTL") || 30)`. -/
def STREAM_VALIDATION_CACHE_TTL : Nat := 30

/-- Default of `Number(Deno.env.get("VIDEO_INFO_CACHE_SIZE") || 1_00_000)`. -/
def VIDEO_INFO_CACHE_SIZE : Nat := 100000

/-- main.ts line 34: `new LruCache(STREAM_VALIDATION_CACHE_TTL * MINUTE)`. -/
def STREAM_VALIDATION_CACHE : CacheConfig :=
  ⟨CacheKind.lru, STREAM_VALIDATION_CACHE_TTL * MINUTE⟩

/-- main.ts line 43: `new TtlCache(VIDEO_INFO_CACHE_SIZE * MINUTE)`. -/
def VIDEO_INFO_CACHE : CacheConfig :=
  ⟨CacheKind.ttl, VIDEO_INFO_CACHE_SIZE * MINUTE⟩

/-- main.ts line 106: the memoization store handed to `validateStream`. -/
def validateStreamCacheConfig : CacheConfig := STREAM_VALIDATION_CACHE

/-- main.ts line 125: the memoization store handed to `getVideoInfo`. -/
def getVideoInfoCacheConfig : CacheConfig := VIDEO_INFO_CACHE

/-- main.ts line 142: the memoization store handed to `getVideoId`. -/
def getVideoIdCacheConfig : CacheConfig := VIDEO_INFO_CACHE

/-! ## Candidate parser (main.ts lines 67-69 and 238-248) -/

/-- The recognized query keys `["v", "c", "x"]` (`allowedParams`). -/
inductive ParamType where
  | v
  | c
  | x
deriving DecidableEq

/-- A parsed candidate: `type T_Params = { type: "v" | "c" | "x"; value: string }`. -/
structure T_Params where
  type : ParamType
  value : String
deriving DecidableEq

/-- Membership test of a query key in `allowedParams`, returning the
corresponding candidate kind. -/
def keyToType (k : String) : Option ParamType :=
  if k = "v" then some ParamType.v
  else if k = "c" then some ParamType.c
  else if k = "x" then some ParamType.x
  else none

/-- `params[params.length - 1].value += "&" + key + "=" + value` — append the
stray pair's rendering to the value of the last candidate (no-op on an
empty list). -/
def appendToLast (k v : String) : List T_Params → List T_Params
  | [] => []
  | [p] => [⟨p.type, p.value ++ "&" ++ k ++ "=" ++ v⟩]
  | p :: ps => p :: appendToLast k v ps

/-- The candidate-parsing loop of the `/` handler (main.ts lines 242-248),
threading the `params` accumulator through the query pairs in order. -/
def parseLoop (acc : List T_Params) : List (String × String) → List T_Params
  | [] => acc
  | (k, v) :: rest =>
    match keyToType k with
    | some t => parseLoop (acc ++ [⟨t, v⟩]) rest
    | none =>
      if acc.length > 0 then parseLoop (appendToLast k v acc) rest
      else parseLoop acc rest

/-- Parse an ordered list of query (key, value) pairs into candidates. -/
def parseParams (pairs : List (String × String)) : List T_Params :=
  parseLoop [] pairs

/-! ## Resolver oracles and getHslStream (main.ts lines 74-175)

The three memoized helpers wrap their upstream effects in try/catch and
return `undefined` on any exception.  We model the raw upstream operations
as oracles that either return an optional string or raise an exception of
type `E`, and the catch blocks as `tryCatch`. -/

/-- The upstream effects consumed per candidate: the direct-URL probe inside
`validateStream`, `session.resolveURL` inside `getVideoId`, and
`session.getInfo` inside `getVideoInfo`.  Each may raise an exception. -/
structure Ops (E : Type) where
  validate : String → Except E (Option String)
  resolveURL : String → Except E (Option String)
  getInfo : String → Except E (Option String)

/-- A `try { ... } catch (error) { console.error(...) }` block around a body
producing `string | undefined`: exceptions are logged and downgraded to
`undefined`. -/
def tryCatch {E : Type} (x : Except E (Option String)) : Option String :=
  match x with
  | Except.ok r => r
  | Except.error _ => none

/-- The memoized `validateStream` at the orchestration boundary: its body is
wrapped in try/catch, so it never raises (main.ts lines 74-109). -/
def validateStream {E : Type} (ops : Ops E) (url : String) : Option String :=
  tryCatch (ops.validate url)

/-- The memoized `getVideoInfo`: try/catch around `session.getInfo`
(main.ts lines 114-128). -/
def getVideoInfo {E : Type} (ops : Ops E) (vid : String) : Option String :=
  tryCatch (ops.getInfo vid)

/-- The memoized `getVideoId`: try/catch around `session.resolveURL`
(main.ts lines 130-145). -/
def getVideoId {E : Type} (ops : Ops E) (url : String) : Option String :=
  tryCatch (ops.resolveURL url)

/-- The canonical live-page URL a by-handle candidate is resolved through. -/
def liveUrl (handle : String) : String :=
  "https://www.youtube.com/" ++ handle ++ "/live"

/-- One recorded dispatch to a memoized helper. -/
inductive CallRec where
  | validate (url : String)
  | resolveURL (url : String)
  | getInfo (vid : String)
deriving DecidableEq

/-- `getHslStream` (main.ts lines 150-175) with an instrumentation trace of
the memoized helpers it dispatches to.  For a by-handle candidate the guard
`if (!vid) return undefined` treats both `undefined` and the empty string
as absent (JavaScript falsiness). -/
def getHslStreamT {E : Type} (ops : Ops E) (p : T_Params) :
    Option String × List CallRec :=
  match p.type with
  | ParamType.x => (validateStream ops p.value, [CallRec.validate p.value])
  | ParamType.v => (getVideoInfo ops p.value, [CallRec.getInfo p.value])
  | ParamType.c =>
    match getVideoId ops (liveUrl p.value) with
    | none => (none, [CallRec.resolveURL (liveUrl p.value)])
    | some vid =>
      if vid = "" then (none, [CallRec.resolveURL (liveUrl p.value)])
      else (getVideoInfo ops vid,
        [CallRec.resolveURL (liveUrl p.value), CallRec.getInfo vid])

/-- The value `getHslStream` returns, without the instrumentation trace. -/
def getHslStream {E : Type} (ops : Ops E) (p : T_Params) : Option String :=
  (getHslStreamT ops p).1

/-- The composite per-candidate resolution with exceptions left uncaught:
the same dispatch structure as `getHslStream` but propagating the first
raised exception instead of catching it.  Used to state that a raised
exception is downgraded to absence. -/
def getHslStreamE {E : Type} (ops : Ops E) (p : T_Params) :
    Except E (Option String) :=
  match p.type with
  | ParamType.x => ops.validate p.value
  | ParamType.v => ops.getInfo p.value
  | ParamType.c =>
    match ops.resolveURL (liveUrl p.value) with
    | Except.error e => Except.error e
    | Except.ok none => Except.ok none
    | Except.ok (some vid) =>
      if vid = "" then Except.ok none else ops.getInfo vid

/-! ## Fallback orchestrator (main.ts lines 238-277) -/

/-- The three outcomes of the `/` handler: `c.redirect(streamUrl)` (HTTP
302), the aggregate `c.json({success: false, error: "No valid stream
found!"}, 404)`, and the empty-candidate diagnostics response
`c.json({message: "Server running!", ...}, 200)`. -/
inductive Response where
  | redirect (url : String)
  | notFound
  | serverRunning
deriving DecidableEq

/-- The HTTP status code of each handler outcome (`c.redirect` defaults to
302). -/
def respStatus : Response → Nat
  | Response.redirect _ => 302
  | Response.notFound => 404
  | Response.serverRunning => 200

/-- JavaScript truthiness of a `string | undefined` value: `undefined` and
`""` are falsy, every other string is truthy. -/
def truthy : Option String → Bool
  | none => false
  | some s => if s = "" then false else true

/-- The candidate loop of the `/` handler (main.ts lines 268-276): dispatch
candidates in order, redirect on the first truthy result, 404 when the list
is exhausted.  The second component records, in order, each dispatched
candidate together with the memoized-helper calls its dispatch issued. -/
def resolveLoopT {E : Type} (ops : Ops E) :
    List T_Params → Response × List (T_Params × List CallRec)
  | [] => (Response.notFound, [])
  | p :: ps =>
    let pr := getHslStreamT ops p
    if truthy pr.1 then (Response.redirect (pr.1.getD ""), [(p, pr.2)])
    else
      let rest := resolveLoopT ops ps
      (rest.1, (p, pr.2) :: rest.2)

/-- The full `/` handler (main.ts lines 238-277): parse the query pairs; if
no candidate was produced return the diagnostics response without
dispatching anything, otherwise run the candidate loop. -/
def handleRootT {E : Type} (ops : Ops E) (pairs : List (String × String)) :
    Response × List (T_Params × List CallRec) :=
  let params := parseParams pairs
  if params.length = 0 then (Response.serverRunning, [])
  else resolveLoopT ops params

/-! ## Stream validator internals (main.ts lines 74-109)

The probe logic:

  const options: RequestInit = \x7b method: "HEAD" \x7d;
  const response = await fetch(cleanUrl, options).catch(() =>
    fetch(cleanUrl, \x7b ...options, method: "GET" \x7d));
  if (response.status < 400) return cleanUrl;

`.catch` fires only on a rejected promise (a transport-level failure), not
on an error status code; a rejection of the fallback GET propagates to the
outer try/catch, which yields `undefined`. -/

/-- The probe method of a `fetch` call. -/
inductive Method where
  | head
  | get
deriving DecidableEq

/-- Outcome of one `fetch`: a response with a status code, or a rejected
promise (connection-level error). -/
inductive FetchResult where
  | ok (status : Nat)
  | netError
deriving DecidableEq

/-- The response the probe chain settles on: HEAD's response when HEAD
resolves, else GET's outcome (netError here means both rejected, landing in
the outer catch). -/
def probeResponse (fetchR : Method → FetchResult) : FetchResult :=
  match fetchR Method.head with
  | FetchResult.ok s => FetchResult.ok s
  | FetchResult.netError => fetchR Method.get

/-- The probes actually issued, in order: HEAD always; GET only when HEAD's
promise rejected. -/
def probeMethods (fetchR : Method → FetchResult) : List Method :=
  match fetchR Method.head with
  | FetchResult.ok _ => [Method.head]
  | FetchResult.netError => [Method.head, Method.get]

/-- The value `validateStream` produces from the settled probe: the cleaned
URL when the status is strictly below 400, absence otherwise, and absence
when both probes rejected (exception caught by the outer try/catch). -/
def probeOutcome (fetchR : Method → FetchResult) (cleanUrl : String) :
    Option String :=
  match probeResponse fetchR with
  | FetchResult.ok s => if s < 400 then some cleanUrl else none
  | FetchResult.netError => none

/-! ### Custom-header extraction (main.ts lines 78-94)

  const customHeaders = urlObj.searchParams.get(customHeaderKey);
  if (customHeaders) \x7b
    customHeaders.split(",").forEach((pair) => \x7b
      const [key, ...valueParts] = pair.split(":");
      if (key && valueParts.length) headers[key] = valueParts.join(":");
    \x7d);
    urlObj.searchParams.delete(customHeaderKey);
  \x7d
  const cleanUrl = urlObj.toString();

Strings are handled at character-list level so that the semantics of
JavaScript's single-character `split` and `join` are explicit. -/

/-- Accumulator-passing core of JavaScript `String.prototype.split` with a
single-character separator. -/
def splitAux (c : Char) : List Char → List Char → List (List Char)
  | [], cur => [cur.reverse]
  | a :: rest, cur =>
    if a = c then cur.reverse :: splitAux c rest []
    else splitAux c rest (a :: cur)

/-- JavaScript `s.split(c)` for a single-character separator `c`. -/
def jsSplit (c : Char) (s : List Char) : List (List Char) :=
  splitAux c s []

/-- JavaScript `parts.join(c)` for a single-character separator `c`. -/
def joinSep (c : Char) : List (List Char) → List Char
  | [] => []
  | [x] => x
  | x :: xs => x ++ c :: joinSep c xs

/-- The outbound `headers` object: an association of header names to
values, assignment overwriting an existing name in place. -/
abbrev HeaderMap : Type := List (List Char × List Char)

/-- `headers[key] = value`: overwrite the existing entry for `key` or
append a new one. -/
def setHeader (k v : List Char) : HeaderMap → HeaderMap
  | [] => [(k, v)]
  | (k0, v0) :: rest =>
    if k0 = k then (k, v) :: rest else (k0, v0) :: setHeader k v rest

/-- Read a header by name from the outbound header object. -/
def lookupHeader (k : List Char) : HeaderMap → Option (List Char)
  | [] => none
  | (k0, v0) :: rest => if k0 = k then some v0 else lookupHeader k rest

/-- One iteration of the `forEach` over comma-separated pairs: split the
pair on ":", keep the first piece as the header name, rejoin the remaining
pieces with ":" as the value; skip the pair when the name is empty or there
is no colon at all. -/
def processPair (hs : HeaderMap) (pair : List Char) : HeaderMap :=
  match jsSplit ':' pair with
  | [] => hs
  | key :: valueParts =>
    if key ≠ [] ∧ valueParts ≠ [] then
      setHeader key (joinSep ':' valueParts) hs
    else hs

/-- The whole `forEach` over `customHeaders.split(",")`, folded over an
initial header object. -/
def extractHeaders (customHeaders : List Char) (hs : HeaderMap) : HeaderMap :=
  (jsSplit ',' customHeaders).foldl processPair hs

/-- A parsed URL as the validator observes it: a base (scheme, host, path)
and the ordered query pairs; mirrors the `URL`/`URLSearchParams` operations
the validator uses. -/
structure UrlModel where
  base : String
  qparams : List (String × String)
deriving DecidableEq

/-- `urlObj.searchParams.get(k)`: the value of the first pair named `k`. -/
def getQueryParam (u : UrlModel) (k : String) : Option String :=
  match u.qparams.find? (fun p => decide (p.1 = k)) with
  | some p => some p.2
  | none => none

/-- `urlObj.searchParams.delete(k)`: remove every pair named `k`. -/
def deleteQueryParam (u : UrlModel) (k : String) : UrlModel :=
  ⟨u.base, u.qparams.filter (fun p => decide (p.1 ≠ k))⟩

/-- Serialization of the remaining query pairs. -/
def renderQuery : List (String × String) → String
  | [] => ""
  | [(k, v)] => k ++ "=" ++ v
  | (k, v) :: rest => k ++ "=" ++ v ++ "&" ++ renderQuery rest

/-- `urlObj.toString()` over the model. -/
def urlToString (u : UrlModel) : String :=
  match u.qparams with
  | [] => u.base
  | _ => u.base ++ "?" ++ renderQuery u.qparams

/-- Lines 82-94: read the reserved query parameter (the `if (customHeaders)`
guard is JavaScript truthiness, so an empty value is skipped), extract the
header instructions into the outbound header object, and strip the reserved
parameter from the URL. -/
def validatePrepare (customHeaderKey : String) (initHeaders : HeaderMap)
    (u : UrlModel) : UrlModel × HeaderMap :=
  match getQueryParam u customHeaderKey with
  | some ch =>
    if ch = "" then (u, initHeaders)
    else (deleteQueryParam u customHeaderKey, extractHeaders ch.toList initHeaders)
  | none => (u, initHeaders)

/-- The validator body over the URL model: prepare headers and cleaned URL,
then probe with the extracted headers applied to the outbound requests
(`fetchR` receives the header object the code passes to `fetch`). -/
def validateStreamModel (customHeaderKey : String) (initHeaders : HeaderMap)
    (fetchR : HeaderMap → Method → FetchResult) (u : UrlModel) : Option String :=
  let prep := validatePrepare customHeaderKey initHeaders u
  probeOutcome (fetchR prep.2) (urlToString prep.1)

/-! ## Memoization store discipline (spec section 4.4) -/

/-- Modelled from the spec: the `memoize` wrapper of `@std/cache` is a
dependency of `src/main.ts`, not itself under `src/`; only its call sites
are.  Spec section 4.4: `get(key)` returns a live entry without invoking
the wrapped function, otherwise invokes it exactly once and stores the
resulting future immediately — before it resolves — so that concurrent
callers with the same key share it.  The state tracks the key-to-future
map, the next fresh future id, and the keys on which the wrapped function
was invoked, in order. -/
structure MemoState where
  cache : List (String × Nat)
  nextId : Nat
  invoked : List String
deriving DecidableEq

/-- Lookup of a key in the memoization map. -/
def memoLookup (key : String) : List (String × Nat) → Option Nat
  | [] => none
  | (k, fid) :: rest => if k = key then some fid else memoLookup key rest

/-- Modelled from the spec: one `get(key)` step.  The check-invoke-store
sequence contains no suspension point (the future is stored before it
resolves), so each lookup is a single atomic step of the cooperative
scheduler; a concurrent execution of N lookups is therefore some sequential
interleaving of these steps. -/
def memoGet (st : MemoState) (key : String) : Nat × MemoState :=
  match memoLookup key st.cache with
  | some fid => (fid, st)
  | none =>
    (st.nextId,
      ⟨st.cache ++ [(key, st.nextId)], st.nextId + 1, st.invoked ++ [key]⟩)

/-- N callers performing `get(key)` one atomic step after another,
collecting the future each caller receives. -/
def runGets (key : String) : Nat → MemoState → List Nat × MemoState
  | 0, st => ([], st)
  | Nat.succ n, st =>
    let r := memoGet st key
    let rest := runGets key n r.2
    (r.1 :: rest.1, rest.2)

/-- The empty memoization store. -/
def emptyMemo : MemoState := ⟨[], 0, []⟩

/-! ## Clear-cache handler (src/unnamed/part_000 lines 210-232) -/

/-- The JSON body and status the `/clear-cache` handler produces. -/
structure ClearResult where
  status : Nat
  success : Bool
  message : Option String
  errorMsg : Option String
deriving DecidableEq

/-- The `/clear-cache` handler: reject without access; with access, clear a
non-empty cache and report "Cache cleared!", or report "Nothing to clear.
Cache is empty!" — both with status 200 and `success: true`.  The cache is
the store's entry list; `if (TTL_CACHE.size)` is the truthiness test of its
entry count, and `TTL_CACHE.clear()` drops every entry in one step. -/
def clearCacheHandler (hasAccess : Bool) (cacheEntries : List (String × Nat)) :
    ClearResult × List (String × Nat) :=
  if hasAccess = false then
    (⟨401, false, none, some "Unauthorized. Missing API key!"⟩, cacheEntries)
  else if cacheEntries.length ≠ 0 then
    (⟨200, true, some "Cache cleared!", none⟩, [])
  else
    (⟨200, true, none, some "Nothing to clear. Cache is empty!"⟩, cacheEntries)

/-! ## Sample oracles used by the concrete witnesses -/

/-- An oracle where every upstream operation raises. -/
def failingOps : Ops Unit where
  validate := fun _ => Except.error ()
  resolveURL := fun _ => Except.error ()
  getInfo := fun _ => Except.error ()

/-- An oracle where direct-URL validation yields absence, id resolution
succeeds, and only the video id "good" has a manifest. -/
def mixedOps : Ops Unit where
  validate := fun _ => Except.ok none
  resolveURL := fun _ => Except.ok (some "vid1")
  getInfo := fun v =>
    if v = "good" then Except.ok (some "https://m.example/live.m3u8")
    else Except.ok none

/-- An oracle whose id resolution yields absence. -/
def absentOps : Ops Unit where
  validate := fun _ => Except.ok none
  resolveURL := fun _ => Except.ok none
  getInfo := fun _ => Except.ok (some "https://m.example/live.m3u8")

/-- A transport oracle whose HEAD probe rejects and whose GET probe returns
status 200. -/
def headFailFetch : Method → FetchResult
  | Method.head => FetchResult.netError
  | Method.get => FetchResult.ok 200

/-! ## Helper lemmas: candidate parser -/

theorem appendToLast_cons (k v : String) (a : T_Params) (l : List T_Params)
    (hl : l ≠ []) : appendToLast k v (a :: l) = a :: appendToLast k v l := by
  cases l with
  | nil => exact absurd rfl hl
  | cons b rest => rfl

theorem appendToLast_concat (k v : String) (l : List T_Params) (p : T_Params) :
    appendToLast k v (l ++ [p]) =
      l ++ [⟨p.type, p.value ++ "&" ++ k ++ "=" ++ v⟩] := by
  induction l with
  | nil => rfl
  | cons a l ih =>
    rw [List.cons_append, appendToLast_cons k v a (l ++ [p]) (by simp), ih]
    rfl

theorem appendToLast_map_type (k v : String) (l : List T_Params) :
    (appendToLast k v l).map T_Params.type = l.map T_Params.type := by
  induction l with
  | nil => rfl
  | cons p ps ih =>
    cases ps with
    | nil => rfl
    | cons q qs => simp [appendToLast] at ih ⊢; exact ih

theorem parseLoop_map_type (pairs : List (String × String)) :
    ∀ acc : List T_Params,
      (parseLoop acc pairs).map T_Params.type =
        acc.map T_Params.type ++ pairs.filterMap (fun kv => keyToType kv.1) := by
  induction pairs with
  | nil => intro acc; simp [parseLoop]
  | cons kv rest ih =>
    intro acc
    obtain ⟨k, v⟩ := kv
    cases hk : keyToType k with
    | some t => simp [parseLoop, hk, ih, List.filterMap_cons]
    | none =>
      by_cases hl : acc.length > 0
      · simp [parseLoop, hk, hl, ih, appendToLast_map_type, List.filterMap_cons]
      · simp [parseLoop, hk, hl, ih, List.filterMap_cons]

theorem parseLoop_append (xs ys : List (String × String)) :
    ∀ acc : List T_Params,
      parseLoop acc (xs ++ ys) = parseLoop (parseLoop acc xs) ys := by
  induction xs with
  | nil => intro acc; rfl
  | cons kv rest ih =>
    intro acc
    obtain ⟨k, v⟩ := kv
    cases hk : keyToType k with
    | some t => simp [parseLoop, hk, ih]
    | none => by_cases hl : acc.length > 0 <;> simp [parseLoop, hk, hl, ih]

theorem filterMap_none {α β : Type} (f : α → Option β) :
    ∀ l : List α, (∀ a ∈ l, f a = none) → l.filterMap f = [] := by
  intro l
  induction l with
  | nil => intro _; rfl
  | cons a rest ih =>
    intro h
    rw [List.filterMap_cons, h a (by simp)]
    exact ih (fun b hb => h b (by simp [hb]))

/-! ## Helper lemmas: orchestrator -/

theorem getHslStreamE_error {E : Type} (ops : Ops E) (p : T_Params) (e : E)
    (h : getHslStreamE ops p = Except.error e) : getHslStream ops p = none := by
  cases hp : p.type with
  | x =>
    simp only [getHslStreamE, hp] at h
    simp [getHslStream, getHslStreamT, hp, validateStream, tryCatch, h]
  | v =>
    simp only [getHslStreamE, hp] at h
    simp [getHslStream, getHslStreamT, hp, getVideoInfo, tryCatch, h]
  | c =>
    simp only [getHslStreamE, hp] at h
    cases hr : ops.resolveURL (liveUrl p.value) with
    | error e2 =>
      simp [getHslStream, getHslStreamT, hp, getVideoId, tryCatch, hr]
    | ok vopt =>
      rw [hr] at h
      cases vopt with
      | none => simp at h
      | some vid =>
        by_cases hv : vid = ""
        · simp [hv] at h
        · simp only [hv, if_false] at h
          simp [getHslStream, getHslStreamT, hp, getVideoId, getVideoInfo,
            tryCatch, hr, hv, h]

theorem resolveLoopT_skip {E : Type} (ops : Ops E) :
    ∀ (ps : List T_Params) (i : Nat) (h : i < ps.length),
      getHslStream ops (ps.get ⟨i, h⟩) = none →
      (resolveLoopT ops ps).1 = (resolveLoopT ops (ps.eraseIdx i)).1 := by
  intro ps
  induction ps with
  | nil => intro i h; exact absurd h (by simp)
  | cons p rest ih =>
    intro i h hnone
    cases i with
    | zero =>
      have hp : (getHslStreamT ops p).1 = none := hnone
      simp [resolveLoopT, hp, truthy, List.eraseIdx]
    | succ n =>
      have h' : n < rest.length := Nat.lt_of_succ_lt_succ h
      have hnone' : getHslStream ops (rest.get ⟨n, h'⟩) = none := hnone
      cases ht : truthy (getHslStreamT ops p).1 with
      | true => simp [resolveLoopT, ht, List.eraseIdx]
      | false => simp [resolveLoopT, ht, List.eraseIdx, ih n h' hnone']

theorem resolveLoopT_status {E : Type} (ops : Ops E) (ps : List T_Params) :
    respStatus (resolveLoopT ops ps).1 = 302 ∨
      respStatus (resolveLoopT ops ps).1 = 404 := by
  induction ps with
  | nil => right; rfl
  | cons p rest ih =>
    cases ht : truthy (getHslStreamT ops p).1 with
    | true => left; simp [resolveLoopT, ht, respStatus]
    | false => simpa [resolveLoopT, ht] using ih

/-! ## Helper lemmas: split and join -/

theorem splitAux_ne_nil (c : Char) (s : List Char) :
    ∀ cur : List Char, splitAux c s cur ≠ [] := by
  induction s with
  | nil => intro cur; simp [splitAux]
  | cons a rest ih =>
    intro cur
    by_cases ha : a = c
    · simp [splitAux, ha]
    · simp only [splitAux, if_neg ha]
      exact ih _

theorem joinSep_cons_of_ne_nil (c : Char) (x : List Char)
    (xs : List (List Char)) (h : xs ≠ []) :
    joinSep c (x :: xs) = x ++ c :: joinSep c xs := by
  cases xs with
  | nil => exact absurd rfl h
  | cons y ys => rfl

theorem splitAux_cons_eq (c : Char) (s cur : List Char) :
    splitAux c (c :: s) cur = cur.reverse :: splitAux c s [] := by
  simp [splitAux]

theorem splitAux_cons_ne (c a : Char) (ha : ¬ a = c) (s cur : List Char) :
    splitAux c (a :: s) cur = splitAux c s (a :: cur) := by
  simp [splitAux, ha]

theorem joinSep_splitAux (c : Char) (s : List Char) :
    ∀ cur : List Char, joinSep c (splitAux c s cur) = cur.reverse ++ s := by
  induction s with
  | nil => intro cur; simp [splitAux, joinSep]
  | cons a rest ih =>
    intro cur
    by_cases ha : a = c
    · subst ha
      rw [splitAux_cons_eq,
        joinSep_cons_of_ne_nil a _ _ (splitAux_ne_nil a rest []), ih []]
      simp
    · rw [splitAux_cons_ne c a ha, ih (a :: cur)]
      simp

theorem splitAux_sep_split (c : Char) :
    ∀ name : List Char, c ∉ name →
      ∀ value cur : List Char,
        splitAux c (name ++ c :: value) cur =
          (cur.reverse ++ name) :: splitAux c value [] := by
  intro name
  induction name with
  | nil =>
    intro _ value cur
    rw [List.nil_append, splitAux_cons_eq]
    simp
  | cons a name ih =>
    intro h value cur
    have ha : ¬ a = c := by
      intro hac
      exact h (by simp [hac])
    have h' : c ∉ name := by
      intro hc
      exact h (by simp [hc])
    rw [List.cons_append, splitAux_cons_ne c a ha, ih h' value (a :: cur)]
    simp

theorem splitAux_no_sep (c : Char) :
    ∀ s : List Char, c ∉ s →
      ∀ cur : List Char, splitAux c s cur = [cur.reverse ++ s] := by
  intro s
  induction s with
  | nil => intro _ cur; simp [splitAux]
  | cons a rest ih =>
    intro h cur
    have ha : ¬ a = c := by
      intro hac
      exact h (by simp [hac])
    have h' : c ∉ rest := by
      intro hc
      exact h (by simp [hc])
    rw [splitAux_cons_ne c a ha, ih h' (a :: cur)]
    simp

theorem processPair_wellFormed (hs : HeaderMap) (name value : List Char)
    (hn : ':' ∉ name) (hne : name ≠ []) :
    processPair hs (name ++ ':' :: value) = setHeader name value hs := by
  have hsplit : jsSplit ':' (name ++ ':' :: value) = name :: jsSplit ':' value := by
    rw [jsSplit, splitAux_sep_split ':' name hn value []]
    simp [jsSplit]
  have hvp : jsSplit ':' value ≠ [] := splitAux_ne_nil ':' value []
  have hjoin : joinSep ':' (jsSplit ':' value) = value := by
    simpa [jsSplit] using joinSep_splitAux ':' value []
  simp [processPair, hsplit, hne, hvp, hjoin]

theorem lookupHeader_setHeader (k v : List Char) (hs : HeaderMap) :
    lookupHeader k (setHeader k v hs) = some v := by
  induction hs with
  | nil => simp [setHeader, lookupHeader]
  | cons p rest ih =>
    obtain ⟨k0, v0⟩ := p
    by_cases hk : k0 = k
    · simp [setHeader, hk, lookupHeader]
    · simp [setHeader, hk, lookupHeader, ih]

theorem extractHeaders_two (hs : HeaderMap) (p1 p2 : List Char)
    (h1 : ',' ∉ p1) (h2 : ',' ∉ p2) :
    extractHeaders (p1 ++ ',' :: p2) hs =
      processPair (processPair hs p1) p2 := by
  rw [extractHeaders, jsSplit, splitAux_sep_split ',' p1 h1 p2 [],
    splitAux_no_sep ',' p2 h2 []]
  simp [processPair, jsSplit]

/-! ## Helper lemmas: memoization model -/

theorem runGets_hit (key : String) (fid : Nat) :
    ∀ (n : Nat) (st : MemoState), memoLookup key st.cache = some fid →
      runGets key n st = (List.replicate n fid, st) := by
  intro n
  induction n with
  | zero => intro st _; rfl
  | succ m ih =>
    intro st h
    simp [runGets, memoGet, h, ih st h, List.replicate]

/-! ## Claim theorems -/

/-- Claim C1 (code bug evidence): the claim — matching the code's own
variable and environment names — says the validated-direct-URL store is the
time-bounded (TTL) cache and the video-info/id-resolution store is the
capacity-bounded (LRU) cache.  The code wires it the other way around:
`validateStream` is memoized over an `LruCache` whose capacity is
`STREAM_VALIDATION_CACHE_TTL * MINUTE` entries, and `getVideoInfo` and
`getVideoId` over a `TtlCache` whose time-to-live is
`VIDEO_INFO_CACHE_SIZE * MINUTE` milliseconds. -/
theorem c1_cacheKindsSwapped :
    validateStreamCacheConfig.kind = CacheKind.lru ∧
    getVideoInfoCacheConfig.kind = CacheKind.ttl ∧
    getVideoIdCacheConfig.kind = CacheKind.ttl ∧
    STREAM_VALIDATION_CACHE.param = STREAM_VALIDATION_CACHE_TTL * MINUTE ∧
    VIDEO_INFO_CACHE.param = VIDEO_INFO_CACHE_SIZE * MINUTE :=
  ⟨rfl, rfl, rfl, rfl, rfl⟩

/-- Claim C2: the orchestrator dispatches candidates strictly in input
order; the first candidate whose resolution is truthy is returned as a
redirect (HTTP 302) and no later candidate is dispatched; if every
candidate's resolution is falsy, the single aggregate not-found outcome
(HTTP 404) results. -/
theorem c2_shortCircuitFirstTruthy :
    (∀ (E : Type) (ops : Ops E) (pre : List T_Params) (p : T_Params)
      (post : List T_Params),
      (∀ q ∈ pre, truthy (getHslStream ops q) = false) →
      truthy (getHslStream ops p) = true →
      (resolveLoopT ops (pre ++ p :: post)).1 =
        Response.redirect ((getHslStream ops p).getD "") ∧
      (resolveLoopT ops (pre ++ p :: post)).2.map Prod.fst = pre ++ [p] ∧
      respStatus (resolveLoopT ops (pre ++ p :: post)).1 = 302) ∧
    (∀ (E : Type) (ops : Ops E) (ps : List T_Params),
      (∀ q ∈ ps, truthy (getHslStream ops q) = false) →
      (resolveLoopT ops ps).1 = Response.notFound ∧
      respStatus (resolveLoopT ops ps).1 = 404) := by
  constructor
  · intro E ops pre
    induction pre with
    | nil =>
      intro p post _ hp
      have hpt : truthy (getHslStreamT ops p).1 = true := hp
      simp [resolveLoopT, hpt, getHslStream, respStatus]
    | cons q pre ih =>
      intro p post hpre hp
      have hq : truthy (getHslStreamT ops q).1 = false := hpre q (by simp)
      have ihh := ih p post (fun r hr => hpre r (by simp [hr])) hp
      simp only [List.cons_append, resolveLoopT, hq] at ihh ⊢
      simp only [Bool.false_eq_true, if_false]
      exact ⟨ihh.1, by simp [ihh.2.1], ihh.2.2⟩
  · intro E ops ps hall
    induction ps with
    | nil => exact ⟨rfl, rfl⟩
    | cons p rest ih =>
      have hp : truthy (getHslStreamT ops p).1 = false := hall p (by simp)
      have ihh := ih (fun r hr => hall r (by simp [hr]))
      simp only [resolveLoopT, hp, Bool.false_eq_true, if_false]
      exact ihh

/-- Claim C3: the candidate parser appends one candidate per recognized key
in first-occurrence order; an unrecognized pair arriving when at least one
candidate exists appends the literal text of the pair to the last
candidate's value; an unrecognized pair arriving before any candidate is a
no-op; and the concrete input from the spec yields exactly two candidates,
the second with value "http://u&junk=1". -/
theorem c3_candidateParsing :
    (∀ pairs : List (String × String),
      (parseParams pairs).map T_Params.type =
        pairs.filterMap (fun kv => keyToType kv.1)) ∧
    (∀ (pairs : List (String × String)) (k v : String)
      (l : List T_Params) (p : T_Params), keyToType k = none →
      parseParams pairs = l ++ [p] →
      parseParams (pairs ++ [(k, v)]) =
        l ++ [⟨p.type, p.value ++ "&" ++ k ++ "=" ++ v⟩]) ∧
    (∀ (pairs : List (String × String)) (k v : String), keyToType k = none →
      parseParams pairs = [] → parseParams (pairs ++ [(k, v)]) = []) ∧
    parseParams [("v", "abc"), ("x", "http://u"), ("junk", "1")] =
      [⟨ParamType.v, "abc"⟩, ⟨ParamType.x, "http://u&junk=1"⟩] := by
  refine ⟨fun pairs => by simpa using parseLoop_map_type pairs [], ?_, ?_, by decide⟩
  · intro pairs k v l p hk hps
    rw [parseParams, parseLoop_append, ← parseParams, hps]
    simp [parseLoop, hk, appendToLast_concat]
  · intro pairs k v hk hps
    rw [parseParams, parseLoop_append, ← parseParams, hps]
    simp [parseLoop, hk]

/-- Claim C4: the validator issues a HEAD probe, escalates to a GET probe
exactly when the HEAD promise rejects (a transport-level failure, not an
error status); whichever probe settles, a status strictly below 400 yields
the cleaned URL, anything else — or a rejection of both probes — yields
absence rather than a thrown error. -/
theorem c4_probeEscalation :
    ∀ (fetchR : Method → FetchResult) (url : String),
      ((Method.get ∈ probeMethods fetchR) ↔
        fetchR Method.head = FetchResult.netError) ∧
      (∀ s : Nat, fetchR Method.head = FetchResult.ok s →
        probeResponse fetchR = FetchResult.ok s) ∧
      (fetchR Method.head = FetchResult.netError →
        probeResponse fetchR = fetchR Method.get) ∧
      (∀ s : Nat, probeResponse fetchR = FetchResult.ok s →
        probeOutcome fetchR url = if s < 400 then some url else none) ∧
      (probeResponse fetchR = FetchResult.netError →
        probeOutcome fetchR url = none) := by
  intro fetchR url
  refine ⟨⟨?_, ?_⟩, ?_, ?_, ?_, ?_⟩
  · intro hm
    cases hh : fetchR Method.head with
    | ok s => simp [probeMethods, hh] at hm
    | netError => rfl
  · intro hh
    simp [probeMethods, hh]
  · intro s hh
    simp [probeResponse, hh]
  · intro hh
    simp [probeResponse, hh]
  · intro s hpr
    simp [probeOutcome, hpr]
  · intro hpr
    simp [probeOutcome, hpr]

/-- Claim C5: an exception raised while resolving one candidate (in
validation, id resolution, or manifest fetch) is downgraded to absence for
that candidate alone: the loop's outcome is the same as if the candidate
were not in the list, and the caller only ever sees a redirect from another
candidate or the aggregate not-found — never the error. -/
theorem c5_exceptionDowngraded :
    ∀ (E : Type) (ops : Ops E) (ps : List T_Params) (i : Nat)
      (h : i < ps.length) (e : E),
      getHslStreamE ops (ps.get ⟨i, h⟩) = Except.error e →
      getHslStream ops (ps.get ⟨i, h⟩) = none ∧
      (resolveLoopT ops ps).1 = (resolveLoopT ops (ps.eraseIdx i)).1 ∧
      (respStatus (resolveLoopT ops ps).1 = 302 ∨
        respStatus (resolveLoopT ops ps).1 = 404) := by
  intro E ops ps i h e herr
  have hnone := getHslStreamE_error ops _ e herr
  exact ⟨hnone, resolveLoopT_skip ops ps i h hnone, resolveLoopT_status ops ps⟩

/-- Claim C6: a by-handle candidate is resolved through the canonical
live-page URL; when the memoized id resolver yields a falsy result the
candidate short-circuits to absence with no manifest fetch dispatched, and
when it yields a non-empty id that id is dispatched to the memoized
manifest fetch, whose result is the candidate's result. -/
theorem c6_byHandleResolution :
    ∀ (E : Type) (ops : Ops E) (handle : String),
      liveUrl handle = "https://www.youtube.com/" ++ handle ++ "/live" ∧
      ((getVideoId ops (liveUrl handle) = none ∨
          getVideoId ops (liveUrl handle) = some "") →
        getHslStreamT ops ⟨ParamType.c, handle⟩ =
          (none, [CallRec.resolveURL (liveUrl handle)])) ∧
      (∀ vid : String, getVideoId ops (liveUrl handle) = some vid → vid ≠ "" →
        getHslStreamT ops ⟨ParamType.c, handle⟩ =
          (getVideoInfo ops vid,
            [CallRec.resolveURL (liveUrl handle), CallRec.getInfo vid])) := by
  intro E ops handle
  refine ⟨rfl, ?_, ?_⟩
  · intro hv
    cases hv with
    | inl h0 => simp [getHslStreamT, h0]
    | inr h0 => simp [getHslStreamT, h0]
  · intro vid hv hne
    simp [getHslStreamT, hv, hne]

/-- Claim C7: a colon-delimited pair of the reserved header-smuggling
parameter is split at its first colon only, so header values containing
further colons are preserved intact; the extracted headers are present in
the outbound header object; pairs are separated by commas; and on a
successful probe the validator returns the cleaned URL with the reserved
parameter stripped. -/
theorem c7_headerSmuggling :
    (∀ (hs : HeaderMap) (name value : List Char), ':' ∉ name → name ≠ [] →
      processPair hs (name ++ ':' :: value) = setHeader name value hs) ∧
    (∀ (k v : List Char) (hs : HeaderMap),
      lookupHeader k (setHeader k v hs) = some v) ∧
    (∀ (hs : HeaderMap) (p1 p2 : List Char), ',' ∉ p1 → ',' ∉ p2 →
      extractHeaders (p1 ++ ',' :: p2) hs =
        processPair (processPair hs p1) p2) ∧
    (∀ (hk : String) (initH : HeaderMap)
      (fetchR : HeaderMap → Method → FetchResult) (u : UrlModel)
      (ch : String) (s : Nat),
      getQueryParam u hk = some ch → ch ≠ "" →
      probeResponse (fetchR (extractHeaders ch.toList initH)) =
        FetchResult.ok s →
      s < 400 →
      validateStreamModel hk initH fetchR u =
        some (urlToString (deleteQueryParam u hk))) := by
  refine ⟨fun hs name value h1 h2 => processPair_wellFormed hs name value h1 h2,
    fun k v hs => lookupHeader_setHeader k v hs,
    fun hs p1 p2 h1 h2 => extractHeaders_two hs p1 p2 h1 h2, ?_⟩
  intro hk initH fetchR u ch s hget hne hpr hs400
  have hpr2 : probeResponse (fetchR (extractHeaders ch.data initH)) =
      FetchResult.ok s := hpr
  simp [validateStreamModel, validatePrepare, hget, hne, probeOutcome, hpr2, hs400]

/-- Claim C8 (modelled from the spec, section 4.4, since the `memoize`
wrapper lives in the external `@std/cache` package): when N callers look up
the same key against an empty store, the wrapped function is invoked
exactly once — the pending future is stored before it resolves, so every
caller receives the same future — and the store holds exactly one entry for
the key. -/
theorem c8_memoSingleInvocation :
    ∀ (n : Nat) (key : String), 0 < n →
      (runGets key n emptyMemo).1 = List.replicate n 0 ∧
      (runGets key n emptyMemo).2.invoked = [key] ∧
      (runGets key n emptyMemo).2.cache = [(key, 0)] := by
  intro n key hn
  cases n with
  | zero => exact absurd hn (by simp)
  | succ m =>
    have h1 : memoGet emptyMemo key = (0, ⟨[(key, 0)], 1, [key]⟩) := by
      simp [memoGet, memoLookup, emptyMemo]
    have h2 : memoLookup key [(key, 0)] = some 0 := by simp [memoLookup]
    have h3 := runGets_hit key 0 m ⟨[(key, 0)], 1, [key]⟩ h2
    simp [runGets, h1, h3, List.replicate]

/-- Claim C9: with access, clearing a non-empty cache drops every entry and
reports the "Cache cleared!" outcome, clearing an empty cache reports the
distinct "Nothing to clear" outcome; both are HTTP 200 success responses,
and in either case the cache ends empty. -/
theorem c9_clearCache :
    ∀ cacheEntries : List (String × Nat),
      (cacheEntries.length ≠ 0 →
        clearCacheHandler true cacheEntries =
          (⟨200, true, some "Cache cleared!", none⟩, [])) ∧
      (cacheEntries.length = 0 →
        clearCacheHandler true cacheEntries =
          (⟨200, true, none, some "Nothing to clear. Cache is empty!"⟩,
            cacheEntries)) ∧
      (clearCacheHandler true cacheEntries).1.status = 200 ∧
      (clearCacheHandler true cacheEntries).1.success = true ∧
      (clearCacheHandler true cacheEntries).2 = [] := by
  intro c
  by_cases h : c.length = 0
  · have hc : c = [] := List.length_eq_zero.mp h
    subst hc
    exact ⟨fun hne => absurd rfl hne, fun _ => rfl, rfl, rfl, rfl⟩
  · refine ⟨fun _ => by simp [clearCacheHandler, h], fun h0 => absurd h0 h,
      ?_, ?_, ?_⟩ <;> simp [clearCacheHandler, h]

/-- Claim C10: a request whose query pairs contain no recognized key
produces zero candidates and gets the diagnostics response with HTTP 200 —
not the 404 not-found — and no candidate is dispatched, so neither the
validator nor the resolver adapter is invoked. -/
theorem c10_emptyParams :
    ∀ (E : Type) (ops : Ops E) (pairs : List (String × String)),
      (∀ kv ∈ pairs, keyToType kv.1 = none) →
      handleRootT ops pairs = (Response.serverRunning, []) ∧
      respStatus (handleRootT ops pairs).1 = 200 ∧
      (handleRootT ops pairs).1 ≠ Response.notFound := by
  intro E ops pairs hnone
  have hfm : pairs.filterMap (fun kv => keyToType kv.1) = [] :=
    filterMap_none _ pairs hnone
  have htypes : (parseParams pairs).map T_Params.type = [] := by
    rw [parseParams]
    simpa [hfm] using parseLoop_map_type pairs []
  have hempty : parseParams pairs = [] := by
    cases he : parseParams pairs with
    | nil => rfl
    | cons a l => rw [he] at htypes; simp at htypes
  refine ⟨?_, ?_, ?_⟩ <;> simp [handleRootT, hempty, respStatus]

/-! ## Witnesses -/

theorem c2_witness :
    (resolveLoopT mixedOps
        ([⟨ParamType.x, "u"⟩] ++ ⟨ParamType.v, "good"⟩ :: [⟨ParamType.v, "late"⟩])).1 =
      Response.redirect ((getHslStream mixedOps ⟨ParamType.v, "good"⟩).getD "") ∧
    (resolveLoopT mixedOps
        ([⟨ParamType.x, "u"⟩] ++ ⟨ParamType.v, "good"⟩ :: [⟨ParamType.v, "late"⟩])).2.map
        Prod.fst = [⟨ParamType.x, "u"⟩] ++ [⟨ParamType.v, "good"⟩] ∧
    respStatus (resolveLoopT mixedOps
        ([⟨ParamType.x, "u"⟩] ++ ⟨ParamType.v, "good"⟩ :: [⟨ParamType.v, "late"⟩])).1 =
      302 :=
  c2_shortCircuitFirstTruthy.1 Unit mixedOps [⟨ParamType.x, "u"⟩]
    ⟨ParamType.v, "good"⟩ [⟨ParamType.v, "late"⟩] (by decide) (by decide)

theorem c3_witness :
    parseParams ([("v", "abc")] ++ [("junk", "1")]) =
      [] ++ [⟨ParamType.v, "abc" ++ "&" ++ "junk" ++ "=" ++ "1"⟩] ∧
    parseParams ([("zz", "0")] ++ [("junk", "1")]) = [] :=
  ⟨c3_candidateParsing.2.1 [("v", "abc")] "junk" "1" [] ⟨ParamType.v, "abc"⟩
      (by decide) (by decide),
    c3_candidateParsing.2.2.1 [("zz", "0")] "junk" "1" (by decide) (by decide)⟩

theorem c4_witness :
    (Method.get ∈ probeMethods headFailFetch) ∧
    probeOutcome headFailFetch "https://s.example/x.m3u8" =
      (if 200 < 400 then some "https://s.example/x.m3u8" else none) :=
  ⟨(c4_probeEscalation headFailFetch "https://s.example/x.m3u8").1.mpr (by decide),
    (c4_probeEscalation headFailFetch "https://s.example/x.m3u8").2.2.2.1 200
      (by decide)⟩

theorem c5_witness :
    getHslStream failingOps
        (List.get [(⟨ParamType.v, "a"⟩ : T_Params), ⟨ParamType.x, "b"⟩]
          ⟨0, by decide⟩) = none ∧
    (resolveLoopT failingOps
        [(⟨ParamType.v, "a"⟩ : T_Params), ⟨ParamType.x, "b"⟩]).1 =
      (resolveLoopT failingOps
        (List.eraseIdx [(⟨ParamType.v, "a"⟩ : T_Params), ⟨ParamType.x, "b"⟩] 0)).1 ∧
    (respStatus (resolveLoopT failingOps
        [(⟨ParamType.v, "a"⟩ : T_Params), ⟨ParamType.x, "b"⟩]).1 = 302 ∨
      respStatus (resolveLoopT failingOps
        [(⟨ParamType.v, "a"⟩ : T_Params), ⟨ParamType.x, "b"⟩]).1 = 404) :=
  c5_exceptionDowngraded Unit failingOps
    [⟨ParamType.v, "a"⟩, ⟨ParamType.x, "b"⟩] 0 (by decide) () rfl

theorem c6_witness :
    getHslStreamT absentOps ⟨ParamType.c, "@chan"⟩ =
      (none, [CallRec.resolveURL (liveUrl "@chan")]) ∧
    getHslStreamT mixedOps ⟨ParamType.c, "@chan"⟩ =
      (getVideoInfo mixedOps "vid1",
        [CallRec.resolveURL (liveUrl "@chan"), CallRec.getInfo "vid1"]) :=
  ⟨(c6_byHandleResolution Unit absentOps "@chan").2.1 (Or.inl (by decide)),
    (c6_byHandleResolution Unit mixedOps "@chan").2.2 "vid1" (by decide) (by decide)⟩

theorem c7_witness :
    processPair [] (("x-key".toList) ++ ':' :: ("a:b".toList)) =
      setHeader ("x-key".toList) ("a:b".toList) [] ∧
    lookupHeader ("x-key".toList)
        (setHeader ("x-key".toList) ("a:b".toList) []) =
      some ("a:b".toList) ∧
    extractHeaders (("x-key:a:b".toList) ++ ',' :: ("n2:v2".toList)) [] =
      processPair (processPair [] ("x-key:a:b".toList)) ("n2:v2".toList) ∧
    validateStreamModel "custom-header" []
        (fun _ _ => FetchResult.ok 200)
        ⟨"https://h/s.m3u8", [("custom-header", "x-key:a:b"), ("q", "1")]⟩ =
      some (urlToString (deleteQueryParam
        ⟨"https://h/s.m3u8", [("custom-header", "x-key:a:b"), ("q", "1")]⟩
        "custom-header")) :=
  ⟨c7_headerSmuggling.1 [] ("x-key".toList) ("a:b".toList) (by decide) (by decide),
    c7_headerSmuggling.2.1 ("x-key".toList) ("a:b".toList) [],
    c7_headerSmuggling.2.2.1 [] ("x-key:a:b".toList) ("n2:v2".toList)
      (by decide) (by decide),
    c7_headerSmuggling.2.2.2 "custom-header" [] (fun _ _ => FetchResult.ok 200)
      ⟨"https://h/s.m3u8", [("custom-header", "x-key:a:b"), ("q", "1")]⟩
      "x-key:a:b" 200 (by decide) (by decide) (by decide) (by decide)⟩

theorem c8_witness :
    0 < 3 ∧
    ((runGets "k" 3 emptyMemo).1 = List.replicate 3 0 ∧
      (runGets "k" 3 emptyMemo).2.invoked = ["k"] ∧
      (runGets "k" 3 emptyMemo).2.cache = [("k", 0)]) :=
  ⟨by decide, c8_memoSingleInvocation 3 "k" (by decide)⟩

theorem c9_witness :
    clearCacheHandler true [("a", 1)] =
      (⟨200, true, some "Cache cleared!", none⟩, []) ∧
    clearCacheHandler true [] =
      (⟨200, true, none, some "Nothing to clear. Cache is empty!"⟩, []) :=
  ⟨(c9_clearCache [("a", 1)]).1 (by decide),
    (c9_clearCache []).2.1 (by decide)⟩

theorem c10_witness :
    handleRootT mixedOps [("junk", "1"), ("vv", "2")] =
      (Response.serverRunning, []) ∧
    respStatus (handleRootT mixedOps [("junk", "1"), ("vv", "2")]).1 = 200 ∧
    (handleRootT mixedOps [("junk", "1"), ("vv", "2")]).1 ≠ Response.notFound :=
  c10_emptyParams Unit mixedOps [("junk", "1"), ("vv", "2")] (by decide)

end LiveTube
